import Mathlib

/-!
Verification development for the persistent Prolog session manager
(`src/docker_swish_mcp/persistent_session.py`).

The Python class `PersistentPrologSession` is shallowly embedded below:
its mutable fields become an explicit `SessionState` record, the
subprocess and the random uuid component become an explicit environment
(`QueryEnv`, `StartEnv`, ...) supplied to each operation, and the
`asyncio.Lock` (which is not reentrant) is modelled by a `lockHeld` flag
together with a `Blocking` result type: acquiring a lock that the same
task already holds never completes, which the embedding renders as
`Blocking.blocked`.
-/

namespace DockerSwish

/-! ## Decimal representation of naturals

Embeds what a Python f-string `f"{n}"` produces for a non-negative
integer: the usual decimal digits, most significant first.  Written with
explicit fuel so that every concrete instance reduces by `decide`/`rfl`. -/

/-- The character Python prints for a single decimal digit. -/
def digitChar : Nat → Char
  | 0 => '0'
  | 1 => '1'
  | 2 => '2'
  | 3 => '3'
  | 4 => '4'
  | 5 => '5'
  | 6 => '6'
  | 7 => '7'
  | 8 => '8'
  | 9 => '9'
  | _ => '*'

/-- Fuel-driven decimal digits, most significant first. -/
def reprAux : Nat → Nat → List Char
  | 0, _ => []
  | fuel + 1, n =>
    if n < 10 then [digitChar n]
    else reprAux fuel (n / 10) ++ [digitChar (n % 10)]

/-- Decimal digit list of `n`, as Python's `str(n)` prints it. -/
def natChars (n : Nat) : List Char := reprAux (n + 1) n

/-! ## Result values

`_execute_raw_query` returns a Python dict; the dict shapes that can be
returned are embedded as a tagged variant.  The auxiliary diagnostic
fields (`query`, `response_lines`) are dropped; the `success` field is
recovered by `isSuccess`. -/

/-- The typed result of one query: the four dict shapes of
`_execute_raw_query` / `execute_query`. -/
inductive QueryResult where
  | solutions (sols : List String)
  | simpleSuccess
  | failure
  | error (msg : String)
deriving DecidableEq, Repr

/-- The truthiness of the `success` field of the returned dict
(`True` exactly for the solutions and simple-success shapes). -/
def isSuccess : QueryResult → Bool
  | .solutions _ => true
  | .simpleSuccess => true
  | .failure => false
  | .error _ => false

/-! ## Python string primitives used by the parser -/

/-- Python `line.startswith(p)`: code-point prefix test. -/
def pyStartsWith (l p : String) : Bool :=
  decide (l.data.take p.data.length = p.data)

/-- Python `line[n:]`: drop the first `n` code points. -/
def pyDrop (l : String) (n : Nat) : String := String.mk (l.data.drop n)

/-! ## Response parser (lines 160–224 of `persistent_session.py`)

The read loop accumulates `success` and `solutions` while reading lines,
stopping on the terminator line, on an `ERROR:` line or when the stream
ends.  The loop is embedded as a fold over the list of lines the
subprocess makes available. -/

/-- How the read loop ended. -/
inductive LoopExit where
  | term (succ : Bool) (sols : List String)
  | errLine (l : String)
  | ranOut (succ : Bool) (sols : List String)
deriving DecidableEq, Repr

/-- The read loop of `_execute_raw_query`: the `elif` chain on each
line, in source order (terminator, `SUCCESS`, `FAILURE`, `SOLUTION: `
prefix, `ERROR:` prefix, otherwise fall through and keep reading). -/
def parseLoop (t : String) : Bool → List String → List String → LoopExit
  | succ, sols, [] => .ranOut succ sols
  | succ, sols, l :: rest =>
    if l = t then .term succ sols
    else if l = "SUCCESS" then parseLoop t true sols rest
    else if l = "FAILURE" then parseLoop t false sols rest
    else if pyStartsWith l "SOLUTION: " then
      parseLoop t succ (sols ++ [pyDrop l 10]) rest
    else if pyStartsWith l "ERROR:" then .errLine l
    else parseLoop t succ sols rest

/-- Lines 198–217: `if solutions: ... elif success: ... else: failure`. -/
def finalize (succ : Bool) (sols : List String) : QueryResult :=
  if sols ≠ [] then .solutions sols
  else if succ then .simpleSuccess
  else .failure

/-- The timeout error message of line 222. -/
def timeoutMsg (timeout : Nat) : String :=
  "Query timed out after " ++ String.mk (natChars timeout) ++ " seconds"

/-- Turn a loop exit into the returned result: an `ERROR:` line returns
immediately; reaching the terminator (or end of stream) finalizes; if
the environment says the next read would have timed out before a
terminator or error was seen, the `asyncio.TimeoutError` branch of
lines 219–224 returns the timeout error. -/
def finalizeLoop (timeout : Nat) (timedOut : Bool) : LoopExit → QueryResult
  | .errLine l => .error l
  | .term succ sols => finalize succ sols
  | .ranOut succ sols =>
    if timedOut then .error (timeoutMsg timeout) else finalize succ sols

/-! ## Terminator token (lines 120–124) -/

/-- Embeds `f"DONE_Q{self.query_counter}_{uuid.uuid4().hex[:8]}"` with
the already incremented counter `n` and the random suffix supplied by
the environment. -/
def mkTerminator (n : Nat) (suffix : String) : String :=
  "DONE_Q" ++ String.mk (natChars n) ++ "_" ++ suffix

/-! ## Query normalization (lines 104–109 of `execute_query`)

`query.strip()`, dropping a leading `?-` (then stripping again), and
appending a final `.` when absent.  Python `str.strip()` removes
whitespace from both ends; the whitespace set is embedded for the ASCII
whitespace characters. -/

/-- ASCII whitespace, as stripped by Python `str.strip()`. -/
def isPySpace (c : Char) : Bool :=
  c == ' ' || c == '\t' || c == '\n' || c == '\r' || c == '\x0b' || c == '\x0c'

/-- Remove leading whitespace. -/
def trimLeft (l : List Char) : List Char := l.dropWhile isPySpace

/-- Remove trailing whitespace. -/
def trimRight (l : List Char) : List Char :=
  (l.reverse.dropWhile isPySpace).reverse

/-- Python `s.strip()`. -/
def pyStrip (l : List Char) : List Char := trimRight (trimLeft l)

/-- Lines 106–107: if the stripped query starts with `?-`, drop those
two characters and strip again. -/
def stripQMark (l : List Char) : List Char :=
  if l.take 2 = ['?', '-'] then pyStrip (l.drop 2) else l

/-- Lines 108–109: append a final `.` unless already present. -/
def addDot (l : List Char) : List Char :=
  if l.getLast? = some '.' then l else l ++ ['.']

/-- The character-level normalization pipeline of `execute_query`. -/
def normChars (l : List Char) : List Char := addDot (stripQMark (pyStrip l))

/-- The `clean_query` value `execute_query` computes from the raw
query. -/
def normalizeQuery (q : String) : String := String.mk (normChars q.data)

/-! ## Variable detection (`_has_variables`, lines 305–309)

`re.search(r'\b[A-Z][a-zA-Z0-9_]*\b', query)`.  The pattern has a match
iff some character in `A`–`Z` occurs either at the start of the string
or right after a non-word character: the trailing `[a-zA-Z0-9_]*\b` can
always be satisfied by extending the match to the end of the run of
word characters, so only the leading `\b[A-Z]` constrains matching.
The embedding scans the string with the previous character at hand.
(`\w`/`\b` are embedded at their ASCII meaning.) -/

/-- A regex word character (`[a-zA-Z0-9_]`), ASCII. -/
def isWordChar (c : Char) : Bool :=
  ('a' ≤ c && c ≤ 'z') || ('A' ≤ c && c ≤ 'Z') || ('0' ≤ c && c ≤ '9') || c == '_'

/-- An ASCII uppercase letter (`[A-Z]`). -/
def isUpperAZ (c : Char) : Bool := 'A' ≤ c && c ≤ 'Z'

/-- Scan with the previously seen character (`none` at the start). -/
def hasVarsAux : Option Char → List Char → Bool
  | _, [] => false
  | prev, c :: rest =>
    (isUpperAZ c &&
      (match prev with
       | none => true
       | some p => !isWordChar p)) ||
    hasVarsAux (some c) rest

/-- Embeds `_has_variables`: the query is classified as
variable-bearing. -/
def hasVariables (q : String) : Bool := hasVarsAux none q.data

/-- Which of the two wire encodings `_execute_raw_query` builds
(lines 127–153). -/
inductive WireShape where
  | ground
  | varBearing
deriving DecidableEq, Repr

/-- Lines 127 / 144: the encoding branch chosen for a (normalized)
query — the `forall`-based solution-collecting form when
`_has_variables` holds, the plain success/failure conditional
otherwise. -/
def encodeShape (q : String) : WireShape :=
  if hasVariables q then .varBearing else .ground

/-! ## Session state and environments -/

/-- A spawned subprocess: an identity and its liveness
(`returncode is None`). -/
structure Proc where
  pid : Nat
  alive : Bool
deriving DecidableEq, Repr

/-- The mutable fields of `PersistentPrologSession`.  `lockHeld` models
whether `session_lock` (a non-reentrant `asyncio.Lock`) is currently
held by the running task. -/
structure SessionState where
  sessionActive : Bool
  process : Option Proc
  queryCounter : Nat
  consultedFiles : List String
  lockHeld : Bool
deriving DecidableEq, Repr

/-- The set membership of `consulted_files` on its list model:
`set.add` is a no-op on an already present element. -/
def addFile (l : List String) (f : String) : List String :=
  if f ∈ l then l else l ++ [f]

/-- An operation that may never complete: awaiting a non-reentrant lock
already held by the same task blocks forever. -/
inductive Blocking (α : Type) where
  | ok (a : α)
  | blocked
deriving DecidableEq, Repr

/-- What the external world does during one `_execute_raw_query`:
either the write to stdin raises (dead pipe), or the write succeeds and
the given lines become available on stdout, `timedOut` saying whether a
further `readline` would exceed the timeout (`false` = the stream ends,
`readline` returns empty bytes). -/
inductive WriteOutcome where
  | raises (msg : String)
  | respond (ls : List String) (timedOut : Bool)
deriving DecidableEq, Repr

/-- Environment for one raw query: the subprocess behaviour and the
8-hex-character random component of the terminator. -/
structure QueryEnv where
  outcome : WriteOutcome
  suffix : String
deriving DecidableEq, Repr

/-- The terminator token `_execute_raw_query` builds at line 124 when
called in state `s`: the counter has just been incremented, the random
suffix comes from the environment. -/
def rawTerminator (s : SessionState) (env : QueryEnv) : String :=
  mkTerminator (s.queryCounter + 1) env.suffix

/-- Embeds `_execute_raw_query` (lines 114–232): dead-process guard, counter
increment, terminator creation, write, read loop, finalization.  The
broad `except Exception` of line 226 catches a raising write and
returns its message as an error result. -/
def rawExec (s : SessionState) (_q : String) (timeout : Nat) (env : QueryEnv) :
    QueryResult × SessionState :=
  match s.process with
  | none => (.error "Prolog process not active", s)
  | some p =>
    if p.alive then
      let s1 := { s with queryCounter := s.queryCounter + 1 }
      let t := rawTerminator s env
      match env.outcome with
      | .raises m => (.error m, s1)
      | .respond ls timedOut =>
        (finalizeLoop timeout timedOut (parseLoop t false [] ls), s1)
    else (.error "Prolog process not active", s)

/-- Embeds `_cleanup_process` (lines 275–303): deactivate and drop the
subprocess handle; the query counter and the consulted set are
untouched. -/
def cleanupProcess (s : SessionState) : SessionState :=
  { s with sessionActive := false, process := none }

/-- Environment for one `start_session` attempt: whether spawning
raises, the identity of the new process, whether it has already exited
after the settle delay, and the environment of the canary `true`
query. -/
structure StartEnv where
  spawnRaises : Bool
  newPid : Nat
  exitedEarly : Bool
  canary : QueryEnv
deriving DecidableEq, Repr

/-- Embeds `self.process and self.process.returncode is None`. -/
def procAlive : Option Proc → Bool
  | none => false
  | some p => p.alive

/-- Lines 48–86 of `start_session`, after the already-active quick
path: spawn (an exception during spawning is caught at line 83 and
answered with cleanup + `False`), settle, early-exit check (line 65
returns `False` with the dead handle still stored and no cleanup), then
the canary `true` query through `_execute_raw_query`; on a successful
canary set `session_active`, otherwise clean up. -/
def startSessionSpawn (s : SessionState) (env : StartEnv) :
    Blocking (Bool × SessionState) :=
  if env.spawnRaises then .ok (false, cleanupProcess s)
  else if env.exitedEarly then
    .ok (false, { s with process := some ⟨env.newPid, false⟩ })
  else
    let s1 := { s with process := some ⟨env.newPid, true⟩ }
    let r := rawExec s1 "true" 5 env.canary
    if isSuccess r.1 then .ok (true, { r.2 with sessionActive := true })
    else .ok (false, cleanupProcess r.2)

/-- Embeds `start_session` (lines 33–86).  The body runs under
`async with self.session_lock`; if the lock is already held by this
task the acquisition never completes (`asyncio.Lock` is not
reentrant), embedded as `.blocked`.  Line 42 is the already-active
quick path. -/
def startSession (s : SessionState) (env : StartEnv) :
    Blocking (Bool × SessionState) :=
  if s.lockHeld then .blocked
  else if s.sessionActive && procAlive s.process then .ok (true, s)
  else startSessionSpawn s env

/-- Embeds `_ensure_session_active` (lines 264–268). -/
def ensureSessionActive (s : SessionState) (env : StartEnv) :
    Blocking (Bool × SessionState) :=
  if !s.sessionActive || !procAlive s.process then startSession s env
  else .ok (true, s)

/-- Environment for one `execute_query` call. -/
structure ExecEnv where
  start : StartEnv
  query : QueryEnv
deriving DecidableEq, Repr

/-- Embeds `execute_query` (lines 88–112): acquire the session lock, ensure
the session is active (line 102 returns the fixed error when that
fails), normalize the query, run it, release the lock on exit. -/
def executeQuery (s : SessionState) (q : String) (timeout : Nat) (env : ExecEnv) :
    Blocking (QueryResult × SessionState) :=
  if s.lockHeld then .blocked
  else
    let s0 := { s with lockHeld := true }
    match ensureSessionActive s0 env.start with
    | .blocked => .blocked
    | .ok (false, s1) =>
      .ok (.error "Failed to start/maintain Prolog session",
           { s1 with lockHeld := false })
    | .ok (true, s1) =>
      let r := rawExec s1 (normalizeQuery q) timeout env.query
      .ok (r.1, { r.2 with lockHeld := false })

/-- Environment for one `restart_session` call: the start environment
and, for each replayed file name, the environment of its
`consult(...)` query. -/
structure RestartEnv where
  start : StartEnv
  consult : String → QueryEnv

/-- The replay loop of lines 252–258: consult each backed-up name, and
re-add to `consulted_files` only the ones whose consult succeeded. -/
def replayConsults (env : String → QueryEnv) (files : List String)
    (s : SessionState) : SessionState :=
  files.foldl
    (fun acc f =>
      let r := rawExec acc ("consult(" ++ f ++ ").") 10 (env f)
      if isSuccess r.1 then
        { r.2 with consultedFiles := addFile r.2.consultedFiles f }
      else r.2)
    s

/-- Embeds `restart_session` (lines 234–262): snapshot `consulted_files`,
clean up, start afresh, replay the snapshot, return the start
verdict. -/
def restartSession (s : SessionState) (env : RestartEnv) :
    Blocking (Bool × SessionState) :=
  let backup := s.consultedFiles
  match startSession (cleanupProcess s) env.start with
  | .blocked => .blocked
  | .ok (false, s2) => .ok (false, s2)
  | .ok (true, s2) => .ok (true, replayConsults env.consult backup s2)

/-! ## Derived observations used in the claim statements -/

/-- The lines the read loop processes strictly before the terminator
line. -/
def preTerm (t : String) (ls : List String) : List String :=
  ls.takeWhile (fun l => l != t)

/-- The solution payloads the claim says a line sequence carries: every
line with the solution-marker, its marker stripped. -/
def solutionLines (ls : List String) : List String :=
  (ls.filter (fun l => pyStartsWith l "SOLUTION: ")).map (fun l => pyDrop l 10)

/-- The last success/failure marker seen, starting from `b`
(`_execute_raw_query` starts from `False`). -/
def lastFlag (b : Bool) (ls : List String) : Bool :=
  ls.foldl
    (fun acc l => if l = "SUCCESS" then true else if l = "FAILURE" then false else acc)
    b

/-- The stdout lines an environment makes available (none when the
write raises). -/
def responseLines (env : QueryEnv) : List String :=
  match env.outcome with
  | .raises _ => []
  | .respond ls _ => ls

/-- A start environment whose parts are never reached in the runs that
use it. -/
def idleStartEnv : StartEnv :=
  { spawnRaises := false, newPid := 99, exitedEarly := false,
    canary := { outcome := .respond [] false, suffix := "00000000" } }

/-- Fixture: an active session with a live subprocess of pid 7 and five
queries already executed. -/
def brokenPipeState : SessionState :=
  { sessionActive := true, process := some ⟨7, true⟩, queryCounter := 5,
    consultedFiles := [], lockHeld := false }

/-- Fixture: the write to the subprocess raises. -/
def brokenPipeEnv : ExecEnv :=
  { start := idleStartEnv,
    query := { outcome := .raises "BrokenPipeError", suffix := "deadbeef" } }

/-- Fixture: an active session that has consulted the file `kb`. -/
def replayFailState : SessionState :=
  { sessionActive := true, process := some ⟨1, true⟩, queryCounter := 0,
    consultedFiles := ["kb"], lockHeld := false }

/-- Fixture: a restart whose fresh start succeeds (new pid 2, canary
answers `SUCCESS`) and whose replayed `consult(kb).` fails. -/
def replayFailEnv : RestartEnv :=
  { start :=
      { spawnRaises := false, newPid := 2, exitedEarly := false,
        canary := { outcome := .respond ["SUCCESS", "DONE_Q1_aaaaaaaa"] false,
                    suffix := "aaaaaaaa" } },
    consult := fun _ =>
      { outcome := .respond ["FAILURE", "DONE_Q2_bbbbbbbb"] false,
        suffix := "bbbbbbbb" } }

/-- Fixture: an active fresh session with a live subprocess of pid 3. -/
def emptySolState : SessionState :=
  { sessionActive := true, process := some ⟨3, true⟩, queryCounter := 0,
    consultedFiles := [], lockHeld := false }

/-- Fixture: the subprocess output the variable-bearing encoding
produces for a query with an empty solution set under the standard
semantics of `forall/2` — `forall(G, Print)` succeeds vacuously when
`G` has no solutions, so zero solution lines are printed and the
success marker follows, then the terminator. -/
def emptySolEnv : ExecEnv :=
  { start := idleStartEnv,
    query := { outcome := .respond ["SUCCESS", "DONE_Q1_cafebabe"] false,
               suffix := "cafebabe" } }

end DockerSwish

/-! # Theorems -/

namespace DockerSwish

/-! ## Decimal representation: stability, non-emptiness, injectivity -/

theorem reprAux_stable (n : Nat) :
    ∀ f1 f2 : Nat, n < f1 → n < f2 → reprAux f1 n = reprAux f2 n := by
  induction n using Nat.strong_induction_on with
  | _ n ih =>
    intro f1 f2 h1 h2
    cases f1 with
    | zero => omega
    | succ f1 =>
      cases f2 with
      | zero => omega
      | succ f2 =>
        simp only [reprAux]
        by_cases h : n < 10
        · rw [if_pos h, if_pos h]
        · rw [if_neg h, if_neg h]
          have hd : n / 10 < n := Nat.div_lt_self (by omega) (by omega)
          rw [ih (n / 10) hd f1 f2 (by omega) (by omega)]

theorem reprAux_ne_nil (f n : Nat) (h : n < f) : reprAux f n ≠ [] := by
  cases f with
  | zero => omega
  | succ f =>
    simp only [reprAux]
    by_cases h10 : n < 10
    · simp [h10]
    · simp [h10]

theorem digitChar_inj {a b : Nat} (ha : a < 10) (hb : b < 10)
    (h : digitChar a = digitChar b) : a = b := by
  have key : ∀ x y : Fin 10, digitChar x.val = digitChar y.val → x.val = y.val := by
    decide
  exact key ⟨a, ha⟩ ⟨b, hb⟩ h

theorem natChars_inj : ∀ m n : Nat, natChars m = natChars n → m = n := by
  intro m
  induction m using Nat.strong_induction_on with
  | _ m ih =>
    intro n h
    unfold natChars at h
    simp only [reprAux] at h
    by_cases hm : m < 10 <;> by_cases hn : n < 10
    · rw [if_pos hm, if_pos hn] at h
      exact digitChar_inj hm hn (by simpa using h)
    · rw [if_pos hm, if_neg hn] at h
      have hne := reprAux_ne_nil n (n / 10) (Nat.div_lt_self (by omega) (by omega))
      have hlen := congrArg List.length h
      rw [List.length_append] at hlen
      simp only [List.length_cons, List.length_nil] at hlen
      have h0 : (reprAux n (n / 10)).length = 0 := by omega
      exact absurd (List.length_eq_zero.mp h0) hne
    · rw [if_neg hm, if_pos hn] at h
      have hne := reprAux_ne_nil m (m / 10) (Nat.div_lt_self (by omega) (by omega))
      have hlen := congrArg List.length h
      rw [List.length_append] at hlen
      simp only [List.length_cons, List.length_nil] at hlen
      have h0 : (reprAux m (m / 10)).length = 0 := by omega
      exact absurd (List.length_eq_zero.mp h0) hne
    · rw [if_neg hm, if_neg hn] at h
      obtain ⟨h1, h2⟩ := List.append_inj' h (by simp)
      have hmod : m % 10 = n % 10 :=
        digitChar_inj (Nat.mod_lt _ (by omega)) (Nat.mod_lt _ (by omega))
          (by simpa using h2)
      have hdm : m / 10 < m := Nat.div_lt_self (by omega) (by omega)
      have hdn : n / 10 < n := Nat.div_lt_self (by omega) (by omega)
      have h1' : natChars (m / 10) = natChars (n / 10) := by
        unfold natChars
        calc reprAux (m / 10 + 1) (m / 10)
            = reprAux m (m / 10) := reprAux_stable (m / 10) _ _ (by omega) (by omega)
          _ = reprAux n (n / 10) := h1
          _ = reprAux (n / 10 + 1) (n / 10) :=
              reprAux_stable (n / 10) _ _ (by omega) (by omega)
      have := ih (m / 10) hdm (n / 10) h1'
      omega

theorem data_append (s t : String) : (s ++ t).data = s.data ++ t.data := rfl

theorem mkTerminator_inj_counter {i j : Nat} (s : String) (h : i ≠ j) :
    mkTerminator i s ≠ mkTerminator j s := by
  intro he
  apply h
  apply natChars_inj
  have hd := congrArg String.data he
  simp only [mkTerminator, data_append] at hd
  simpa using hd

/-! ## Normalization lemmas -/

theorem dropWhile_idem (p : Char → Bool) (l : List Char) :
    List.dropWhile p (List.dropWhile p l) = List.dropWhile p l := by
  induction l with
  | nil => rfl
  | cons a l ih =>
    by_cases h : p a
    · simp [List.dropWhile_cons, h, ih]
    · simp [List.dropWhile_cons, h]

theorem trimLeft_head (l : List Char) (a : Char) (t : List Char)
    (hl : trimLeft l = l) (he : l = a :: t) : isPySpace a = false := by
  subst he
  by_cases h : isPySpace a
  · rw [trimLeft, List.dropWhile_cons, if_pos h] at hl
    have hlen := congrArg List.length hl
    have hle : (t.dropWhile isPySpace).length ≤ t.length :=
      (List.dropWhile_sublist isPySpace).length_le
    simp only [List.length_cons] at hlen
    omega
  · simpa using h

theorem trimLeft_cons_self (a : Char) (t : List Char) (h : isPySpace a = false) :
    trimLeft (a :: t) = a :: t := by
  simp [trimLeft, List.dropWhile_cons, h]

theorem trimRight_cons (a : Char) (t : List Char) (h : isPySpace a = false) :
    trimRight (a :: t) = a :: trimRight t := by
  unfold trimRight
  rw [List.reverse_cons, List.dropWhile_append]
  by_cases he : (List.dropWhile isPySpace t.reverse).isEmpty
  · rw [if_pos he]
    have ht : List.dropWhile isPySpace t.reverse = [] := by
      simpa [List.isEmpty_iff] using he
    simp [List.dropWhile_cons, h, ht]
  · rw [if_neg he]
    simp

theorem trimRight_append_nonspace (xs : List Char) (c : Char)
    (h : isPySpace c = false) : trimRight (xs ++ [c]) = xs ++ [c] := by
  simp [trimRight, List.reverse_append, List.dropWhile_cons, h]

theorem trimLeft_trimLeft (l : List Char) : trimLeft (trimLeft l) = trimLeft l :=
  dropWhile_idem isPySpace l

theorem trimRight_trimRight (l : List Char) :
    trimRight (trimRight l) = trimRight l := by
  unfold trimRight
  rw [List.reverse_reverse, dropWhile_idem]

theorem trimLeft_trimRight (l : List Char) (h : trimLeft l = l) :
    trimLeft (trimRight l) = trimRight l := by
  cases l with
  | nil => rfl
  | cons a t =>
    have ha : isPySpace a = false := trimLeft_head _ a t h rfl
    rw [trimRight_cons a t ha, trimLeft_cons_self a _ ha]

theorem pyStrip_idem (l : List Char) : pyStrip (pyStrip l) = pyStrip l := by
  unfold pyStrip
  rw [trimLeft_trimRight (trimLeft l) (trimLeft_trimLeft l), trimRight_trimRight]

theorem pyStrip_eq_self_trimLeft (l : List Char) (h : pyStrip l = l) :
    trimLeft l = l := by
  have h1 : (trimLeft l).length ≤ l.length :=
    (List.dropWhile_sublist isPySpace).length_le
  have h2 : (pyStrip l).length ≤ (trimLeft l).length := by
    unfold pyStrip trimRight
    simpa using (List.dropWhile_sublist (l := (trimLeft l).reverse) isPySpace).length_le
  rw [h] at h2
  exact (List.dropWhile_sublist isPySpace (l := l)).eq_of_length (le_antisymm h1 h2)

theorem pyStrip_addDot (m : List Char) (h : pyStrip m = m) :
    pyStrip (addDot m) = addDot m := by
  unfold addDot
  by_cases hd : m.getLast? = some '.'
  · rw [if_pos hd]; exact h
  · rw [if_neg hd]
    have hL : trimLeft m = m := pyStrip_eq_self_trimLeft m h
    have hdot : isPySpace '.' = false := by decide
    unfold pyStrip
    have h1 : trimLeft (m ++ ['.']) = m ++ ['.'] := by
      cases m with
      | nil => simp [trimLeft, List.dropWhile_cons, hdot]
      | cons a t =>
        have ha : isPySpace a = false := trimLeft_head _ a t hL rfl
        rw [List.cons_append]
        exact trimLeft_cons_self a _ ha
    rw [h1, trimRight_append_nonspace m '.' hdot]

theorem pyStrip_stripQMark (l : List Char) :
    pyStrip (stripQMark (pyStrip l)) = stripQMark (pyStrip l) := by
  unfold stripQMark
  by_cases h : (pyStrip l).take 2 = ['?', '-']
  · rw [if_pos h]
    exact pyStrip_idem _
  · rw [if_neg h]
    exact pyStrip_idem _

theorem getLast?_addDot (m : List Char) : (addDot m).getLast? = some '.' := by
  unfold addDot
  by_cases h : m.getLast? = some '.'
  · rw [if_pos h]; exact h
  · rw [if_neg h]
    exact List.getLast?_concat m

theorem normChars_idem (d : List Char) (h : (normChars d).take 2 ≠ ['?', '-']) :
    normChars (normChars d) = normChars d := by
  have hstrip : pyStrip (normChars d) = normChars d :=
    pyStrip_addDot _ (pyStrip_stripQMark d)
  show addDot (stripQMark (pyStrip (normChars d))) = normChars d
  rw [hstrip]
  unfold stripQMark
  rw [if_neg h]
  have hlast : (normChars d).getLast? = some '.' := getLast?_addDot _
  unfold addDot
  rw [if_pos hlast]

/-- C6: the claim as frozen — normalization idempotent for EVERY input
string — is false: normalizing `"?- ?- true"` once yields `"?- true."`,
normalizing it again strips the surviving `?-` and yields `"true."`. -/
theorem c6_counterexample :
    normalizeQuery (normalizeQuery "?- ?- true") ≠ normalizeQuery "?- ?- true" ∧
    normalizeQuery "?- ?- true" = "?- true." ∧
    normalizeQuery (normalizeQuery "?- ?- true") = "true." := by
  decide

/-- C6 (amended): normalization is idempotent for every query whose
once-normalized form does not itself start with `?-`; and `"true."`,
`"true"` and `"?- true."` all normalize to the identical text
`"true."`. -/
theorem c6_normalization_conditionally_idempotent :
    (∀ q : String, (normalizeQuery q).data.take 2 ≠ ['?', '-'] →
        normalizeQuery (normalizeQuery q) = normalizeQuery q) ∧
    normalizeQuery "true." = "true." ∧
    normalizeQuery "true" = "true." ∧
    normalizeQuery "?- true." = "true." := by
  refine ⟨?_, by decide, by decide, by decide⟩
  intro q h
  exact congrArg String.mk (normChars_idem q.data h)

/-- C6 witness: the idempotence part applied at `"?- true"`. -/
theorem c6_witness :
    normalizeQuery (normalizeQuery "?- true") = normalizeQuery "?- true" :=
  c6_normalization_conditionally_idempotent.1 "?- true" (by decide)

/-! ## Read-loop step lemmas -/

theorem parseLoop_cons_term (t : String) (succ : Bool) (sols rest : List String) :
    parseLoop t succ sols (t :: rest) = .term succ sols := by
  simp [parseLoop]

theorem parseLoop_cons_success (t : String) (succ : Bool) (sols rest : List String)
    (h : ("SUCCESS" : String) ≠ t) :
    parseLoop t succ sols ("SUCCESS" :: rest) = parseLoop t true sols rest := by
  simp [parseLoop, h]

theorem parseLoop_cons_failure (t : String) (succ : Bool) (sols rest : List String)
    (h : ("FAILURE" : String) ≠ t) :
    parseLoop t succ sols ("FAILURE" :: rest) = parseLoop t false sols rest := by
  simp [parseLoop, h]

theorem parseLoop_cons_solution (t l : String) (succ : Bool) (sols rest : List String)
    (h : l ≠ t) (h1 : l ≠ "SUCCESS") (h2 : l ≠ "FAILURE")
    (h3 : pyStartsWith l "SOLUTION: " = true) :
    parseLoop t succ sols (l :: rest) =
      parseLoop t succ (sols ++ [pyDrop l 10]) rest := by
  simp [parseLoop, h, h1, h2, h3]

theorem parseLoop_cons_error (t l : String) (succ : Bool) (sols rest : List String)
    (h : l ≠ t) (h1 : l ≠ "SUCCESS") (h2 : l ≠ "FAILURE")
    (h3 : pyStartsWith l "SOLUTION: " = false)
    (h4 : pyStartsWith l "ERROR:" = true) :
    parseLoop t succ sols (l :: rest) = .errLine l := by
  simp [parseLoop, h, h1, h2, h3, h4]

theorem parseLoop_cons_skip (t l : String) (succ : Bool) (sols rest : List String)
    (h : l ≠ t) (h1 : l ≠ "SUCCESS") (h2 : l ≠ "FAILURE")
    (h3 : pyStartsWith l "SOLUTION: " = false)
    (h4 : pyStartsWith l "ERROR:" = false) :
    parseLoop t succ sols (l :: rest) = parseLoop t succ sols rest := by
  simp [parseLoop, h, h1, h2, h3, h4]

theorem preTerm_cons_self (t : String) (ls : List String) :
    preTerm t (t :: ls) = [] := by
  simp [preTerm, List.takeWhile_cons]

theorem preTerm_cons (t l : String) (ls : List String) (h : l ≠ t) :
    preTerm t (l :: ls) = l :: preTerm t ls := by
  simp [preTerm, List.takeWhile_cons, h]

theorem lastFlag_cons (b : Bool) (l : String) (ls : List String) :
    lastFlag b (l :: ls) =
      lastFlag (if l = "SUCCESS" then true else if l = "FAILURE" then false else b) ls :=
  rfl

theorem solutionLines_cons (l : String) (ls : List String) :
    solutionLines (l :: ls) =
      if pyStartsWith l "SOLUTION: " then pyDrop l 10 :: solutionLines ls
      else solutionLines ls := by
  by_cases h : pyStartsWith l "SOLUTION: " <;>
    simp [solutionLines, List.filter_cons, h]

/-- When the terminator occurs in the stream and no `ERROR:` line comes
before it, the read loop stops exactly at the terminator with the last
success/failure marker seen and the solution payloads collected in
order. -/
theorem parseLoop_reaches_term (t : String) :
    ∀ (ls : List String) (succ : Bool) (sols : List String),
      t ∈ ls →
      (∀ l ∈ preTerm t ls, pyStartsWith l "ERROR:" = false) →
      parseLoop t succ sols ls =
        .term (lastFlag succ (preTerm t ls)) (sols ++ solutionLines (preTerm t ls)) := by
  intro ls
  induction ls with
  | nil => intro succ sols hmem _; cases hmem
  | cons l rest ih =>
    intro succ sols hmem herr
    by_cases hlt : l = t
    · subst hlt
      rw [parseLoop_cons_term, preTerm_cons_self]
      simp [lastFlag, solutionLines]
    · have hmem' : t ∈ rest := by
        rcases List.mem_cons.mp hmem with h | h
        · exact absurd h.symm hlt
        · exact h
      have hpre := preTerm_cons t l rest hlt
      have herr' : ∀ x ∈ preTerm t rest, pyStartsWith x "ERROR:" = false := by
        intro x hx
        exact herr x (by rw [hpre]; exact List.mem_cons_of_mem _ hx)
      have herrl : pyStartsWith l "ERROR:" = false :=
        herr l (by rw [hpre]; exact List.mem_cons_self _ _)
      rw [hpre, lastFlag_cons, solutionLines_cons]
      by_cases h1 : l = "SUCCESS"
      · subst h1
        rw [parseLoop_cons_success _ _ _ _ hlt, ih true sols hmem' herr']
        have e2 : pyStartsWith "SUCCESS" "SOLUTION: " = false := by decide
        simp [e2]
      · by_cases h2 : l = "FAILURE"
        · subst h2
          rw [parseLoop_cons_failure _ _ _ _ hlt, ih false sols hmem' herr']
          have e2 : pyStartsWith "FAILURE" "SOLUTION: " = false := by decide
          simp [h1, e2]
        · by_cases h3 : pyStartsWith l "SOLUTION: " = true
          · rw [parseLoop_cons_solution t l succ sols rest hlt h1 h2 h3,
              ih succ (sols ++ [pyDrop l 10]) hmem' herr']
            simp [h1, h2, h3]
          · have h3' : pyStartsWith l "SOLUTION: " = false := by simpa using h3
            rw [parseLoop_cons_skip t l succ sols rest hlt h1 h2 h3' herrl,
              ih succ sols hmem' herr']
            simp [h1, h2, h3']

/-- C7: for a line sequence containing the terminator and no `ERROR:`
line before it, finalization yields `Solutions(list)` whenever at least
one solution line was collected (regardless of the success/failure
markers seen); otherwise `SimpleSuccess` exactly when the last
success/failure marker seen was the success marker (with no marker seen
counting as failure); otherwise `Failure`. -/
theorem c7_finalization_policy (t : String) (ls : List String) (tm : Nat)
    (timedOut : Bool) (hmem : t ∈ ls)
    (herr : ∀ l ∈ preTerm t ls, pyStartsWith l "ERROR:" = false) :
    finalizeLoop tm timedOut (parseLoop t false [] ls) =
      if solutionLines (preTerm t ls) ≠ [] then
        .solutions (solutionLines (preTerm t ls))
      else if lastFlag false (preTerm t ls) then .simpleSuccess
      else .failure := by
  rw [parseLoop_reaches_term t ls false [] hmem herr]
  simp [finalizeLoop, finalize]

/-- C7 witness: one collected solution wins over a trailing failure
marker. -/
theorem c7_witness :
    finalizeLoop 30 false
        (parseLoop "DONE_Q1_x" false [] ["SOLUTION: a", "FAILURE", "DONE_Q1_x"]) =
      QueryResult.solutions ["a"] := by
  have h := c7_finalization_policy "DONE_Q1_x"
    ["SOLUTION: a", "FAILURE", "DONE_Q1_x"] 30 false (by decide) (by decide)
  rw [h]
  decide

/-- C5: the claim as frozen is false: a line matching none of the
recognized markers does NOT finalize the query as an error Result
carrying that line; here `"mystery line"` is skipped and the query
finalizes as `SimpleSuccess` from the remaining lines. -/
theorem c5_counterexample :
    finalizeLoop 30 false
        (parseLoop "DONE_Q1_x" false [] ["mystery line", "SUCCESS", "DONE_Q1_x"]) =
      QueryResult.simpleSuccess ∧
    QueryResult.simpleSuccess ≠ QueryResult.error "mystery line" := by
  decide

/-- C5 (amended): an output line matching none of the recognized
markers is ignored — the loop keeps reading and the query finalizes
from the remaining lines exactly as if the unrecognized line had not
been there; no error Result is produced for it. -/
theorem c5_unrecognized_line_skipped (t l : String) (succ : Bool)
    (sols rest : List String) (tm : Nat) (timedOut : Bool)
    (h : l ≠ t) (h1 : l ≠ "SUCCESS") (h2 : l ≠ "FAILURE")
    (h3 : pyStartsWith l "SOLUTION: " = false)
    (h4 : pyStartsWith l "ERROR:" = false) :
    finalizeLoop tm timedOut (parseLoop t succ sols (l :: rest)) =
      finalizeLoop tm timedOut (parseLoop t succ sols rest) := by
  rw [parseLoop_cons_skip t l succ sols rest h h1 h2 h3 h4]

/-- C5 witness: the skip equation applied at a concrete unrecognized
line. -/
theorem c5_witness :
    finalizeLoop 30 false (parseLoop "T" false [] ["mystery", "T"]) =
      finalizeLoop 30 false (parseLoop "T" false [] ["T"]) :=
  c5_unrecognized_line_skipped "T" "mystery" false [] ["T"] 30 false
    (by decide) (by decide) (by decide) (by decide) (by decide)

/-! ## Raw query characterizations -/

theorem rawExec_dead (s : SessionState) (q : String) (tm : Nat) (env : QueryEnv)
    (h : procAlive s.process = false) :
    rawExec s q tm env = (.error "Prolog process not active", s) := by
  unfold rawExec
  cases hp : s.process with
  | none => rfl
  | some p =>
    rw [hp] at h
    simp only [procAlive] at h
    simp [h]

theorem rawExec_raises (s : SessionState) (q : String) (tm : Nat) (env : QueryEnv)
    (p : Proc) (m : String) (hp : s.process = some p) (ha : p.alive = true)
    (ho : env.outcome = .raises m) :
    rawExec s q tm env = (.error m, { s with queryCounter := s.queryCounter + 1 }) := by
  unfold rawExec
  rw [hp]
  simp [ha, ho]

theorem rawExec_respond (s : SessionState) (q : String) (tm : Nat) (env : QueryEnv)
    (p : Proc) (ls : List String) (b : Bool) (hp : s.process = some p)
    (ha : p.alive = true) (ho : env.outcome = .respond ls b) :
    rawExec s q tm env =
      (finalizeLoop tm b (parseLoop (rawTerminator s env) false [] ls),
       { s with queryCounter := s.queryCounter + 1 }) := by
  unfold rawExec
  rw [hp]
  simp [ha, ho]

theorem executeQuery_not_ready_blocked (s : SessionState) (q : String) (tm : Nat)
    (env : ExecEnv) (hl : s.lockHeld = false)
    (h : s.sessionActive = false ∨ procAlive s.process = false) :
    executeQuery s q tm env = .blocked := by
  unfold executeQuery ensureSessionActive startSession
  rcases h with h | h <;> simp [hl, h]

theorem executeQuery_active_run (s : SessionState) (q : String) (tm : Nat)
    (env : ExecEnv) (p : Proc) (hl : s.lockHeld = false)
    (ha : s.sessionActive = true) (hp : s.process = some p) (hal : p.alive = true) :
    executeQuery s q tm env =
      .ok ((rawExec { s with lockHeld := true } (normalizeQuery q) tm env.query).1,
           { (rawExec { s with lockHeld := true } (normalizeQuery q) tm env.query).2
             with lockHeld := false }) := by
  unfold executeQuery ensureSessionActive
  simp [hl, ha, hp, hal, procAlive]

theorem rawExec_frame (s : SessionState) (q : String) (tm : Nat) (env : QueryEnv) :
    (rawExec s q tm env).2.sessionActive = s.sessionActive ∧
    (rawExec s q tm env).2.process = s.process ∧
    (rawExec s q tm env).2.consultedFiles = s.consultedFiles ∧
    (rawExec s q tm env).2.lockHeld = s.lockHeld ∧
    s.queryCounter ≤ (rawExec s q tm env).2.queryCounter := by
  unfold rawExec
  cases hp : s.process with
  | none => simp [hp]
  | some p =>
    by_cases ha : p.alive = true
    · cases ho : env.outcome <;> simp [hp, ha, ho]
    · simp at ha
      simp [hp, ha]

/-- C1: code bug — the claim (and the spec) says an inactive session
makes `execute_query` call `start()` and return an error Result when
that fails; instead, `execute_query` already holds `session_lock` when
`_ensure_session_active` calls `start_session`, which re-acquires the
same non-reentrant `asyncio.Lock`, so the call never completes: it
deadlocks whenever the session is inactive or its subprocess is dead at
entry.  The fallback error return of line 102 is unreachable. -/
theorem c1_inactive_executeQuery_deadlocks (s : SessionState) (q : String)
    (tm : Nat) (env : ExecEnv) (hl : s.lockHeld = false)
    (h : s.sessionActive = false ∨ procAlive s.process = false) :
    executeQuery s q tm env = .blocked :=
  executeQuery_not_ready_blocked s q tm env hl h

/-- C1 witness: a freshly constructed session (inactive, no process)
deadlocks on its first `execute_query`. -/
theorem c1_witness :
    executeQuery
      { sessionActive := false, process := none, queryCounter := 0,
        consultedFiles := [], lockHeld := false } "true." 30
      { start := idleStartEnv,
        query := { outcome := .respond [] false, suffix := "ab" } } = .blocked :=
  c1_inactive_executeQuery_deadlocks _ "true." 30 _ rfl (Or.inl rfl)

/-- C2: the claim as frozen is false — a dead subprocess detected
during `execute_query` (here: the write raises on a broken pipe) does
NOT trigger an automatic `start()`-and-retry; the error Result is
surfaced directly.  The final state keeps the original process handle
(pid 7, not the environment's fresh pid 99) and the query counter
advanced exactly once, so no `start()` happened and the query was not
re-attempted. -/
theorem c2_counterexample :
    executeQuery brokenPipeState "true." 30 brokenPipeEnv =
      .ok (.error "BrokenPipeError",
           { sessionActive := true, process := some ⟨7, true⟩, queryCounter := 6,
             consultedFiles := [], lockHeld := false }) := by
  decide

/-- C2 (amended): no start-and-retry exists: (1) a failing write during
the query surfaces its message as an error Result directly, with the
process handle untouched and the query counter advanced exactly once —
no restart and no second attempt; (2) a false liveness flag detected at
entry routes into `start_session`, which deadlocks on the non-reentrant
session lock instead of retrying. -/
theorem c2_no_retry :
    (∀ (s : SessionState) (q : String) (tm : Nat) (env : ExecEnv) (p : Proc)
       (m : String),
      s.lockHeld = false → s.sessionActive = true → s.process = some p →
      p.alive = true → env.query.outcome = .raises m →
      executeQuery s q tm env =
        .ok (.error m, { s with queryCounter := s.queryCounter + 1 })) ∧
    (∀ (s : SessionState) (q : String) (tm : Nat) (env : ExecEnv),
      s.lockHeld = false → procAlive s.process = false →
      executeQuery s q tm env = .blocked) := by
  constructor
  · intro s q tm env p m hl ha hp hal ho
    rw [executeQuery_active_run s q tm env p hl ha hp hal,
      rawExec_raises { s with lockHeld := true } (normalizeQuery q) tm env.query p m
        hp hal ho]
    cases s
    simp_all
  · intro s q tm env hl h
    exact executeQuery_not_ready_blocked s q tm env hl (Or.inr h)

/-- C2 witness: both parts applied at concrete sessions. -/
theorem c2_witness :
    executeQuery
        { sessionActive := true, process := some ⟨4, true⟩, queryCounter := 0,
          consultedFiles := [], lockHeld := false } "true." 30
        { start := idleStartEnv,
          query := { outcome := .raises "pipe closed", suffix := "cd" } } =
      .ok (.error "pipe closed",
           { sessionActive := true, process := some ⟨4, true⟩, queryCounter := 1,
             consultedFiles := [], lockHeld := false }) ∧
    executeQuery
        { sessionActive := true, process := some ⟨4, false⟩, queryCounter := 0,
          consultedFiles := [], lockHeld := false } "true." 30
        { start := idleStartEnv,
          query := { outcome := .respond [] false, suffix := "cd" } } = .blocked :=
  ⟨c2_no_retry.1 _ "true." 30 _ ⟨4, true⟩ "pipe closed" rfl rfl rfl rfl rfl,
   c2_no_retry.2 _ "true." 30 _ rfl rfl⟩

/-- C8: when the per-query timeout elapses before the terminator or an
error marker is seen (the read loop runs out of lines without reaching
either), `execute_query` returns the timed-out error Result and the
session is otherwise unchanged: the active flag remains true, the
subprocess handle is not replaced or killed, and the consulted-files
set is not modified. -/
theorem c8_timeout_leaves_session (s : SessionState) (q : String) (tm : Nat)
    (env : ExecEnv) (p : Proc) (ls : List String) (b : Bool) (sols : List String)
    (hl : s.lockHeld = false) (ha : s.sessionActive = true)
    (hp : s.process = some p) (hal : p.alive = true)
    (ho : env.query.outcome = .respond ls true)
    (hro : parseLoop (rawTerminator s env.query) false [] ls = .ranOut b sols) :
    ∃ s2 : SessionState,
      executeQuery s q tm env = .ok (.error (timeoutMsg tm), s2) ∧
      s2.sessionActive = true ∧ s2.process = s.process ∧
      s2.consultedFiles = s.consultedFiles := by
  refine ⟨{ s with queryCounter := s.queryCounter + 1 }, ?_, by simp [ha], by simp,
    by simp⟩
  rw [executeQuery_active_run s q tm env p hl ha hp hal,
    rawExec_respond { s with lockHeld := true } (normalizeQuery q) tm env.query p
      ls true hp hal ho]
  have ht : rawTerminator { s with lockHeld := true } env.query =
      rawTerminator s env.query := rfl
  rw [ht, hro]
  have hfin : finalizeLoop tm true (LoopExit.ranOut b sols) =
      .error (timeoutMsg tm) := by
    simp [finalizeLoop]
  rw [hfin]
  cases s
  simp_all

/-- C8 witness: a response missing its terminator under an elapsed
timeout at a concrete session. -/
theorem c8_witness :
    ∃ s2 : SessionState,
      executeQuery
          { sessionActive := true, process := some ⟨2, true⟩, queryCounter := 0,
            consultedFiles := ["kb"], lockHeld := false } "true." 30
          { start := idleStartEnv,
            query := { outcome := .respond ["SUCCESS"] true, suffix := "ef" } } =
        .ok (.error (timeoutMsg 30), s2) ∧
      s2.sessionActive = true ∧
      s2.process = some ⟨2, true⟩ ∧
      s2.consultedFiles = ["kb"] :=
  c8_timeout_leaves_session _ "true." 30 _ ⟨2, true⟩ ["SUCCESS"] true [] rfl rfl rfl
    rfl rfl (by decide)

/-! ## Start / restart bookkeeping lemmas -/

theorem startSession_state (s : SessionState) (env : StartEnv) (b : Bool)
    (s2 : SessionState) (h : startSession s env = .ok (b, s2)) :
    s2.consultedFiles = s.consultedFiles ∧ s.queryCounter ≤ s2.queryCounter := by
  unfold startSession startSessionSpawn at h
  split at h
  · exact absurd h (by simp)
  · split at h
    · cases h
      exact ⟨rfl, le_refl _⟩
    · split at h
      · cases h
        exact ⟨rfl, le_refl _⟩
      · split at h
        · cases h
          exact ⟨rfl, le_refl _⟩
        · have hc := rawExec_frame { s with process := some ⟨env.newPid, true⟩ }
            "true" 5 env.canary
          simp only [] at h
          split at h <;> cases h <;>
            exact ⟨hc.2.2.1, hc.2.2.2.2⟩

theorem addFile_mem (l : List String) (f : String) (h : f ∈ l) :
    addFile l f = l := by
  simp [addFile, h]

theorem replayConsults_state (env : String → QueryEnv) :
    ∀ (files : List String) (s : SessionState),
      (∀ f ∈ files, f ∈ s.consultedFiles) →
      (replayConsults env files s).consultedFiles = s.consultedFiles ∧
      s.queryCounter ≤ (replayConsults env files s).queryCounter := by
  intro files
  induction files with
  | nil => intro s _; exact ⟨rfl, le_refl _⟩
  | cons f fs ih =>
    intro s hf
    have hr := rawExec_frame s ("consult(" ++ f ++ ").") 10 (env f)
    have hstep : replayConsults env (f :: fs) s =
        replayConsults env fs
          (if isSuccess (rawExec s ("consult(" ++ f ++ ").") 10 (env f)).1 then
            { (rawExec s ("consult(" ++ f ++ ").") 10 (env f)).2 with
              consultedFiles :=
                addFile
                  (rawExec s ("consult(" ++ f ++ ").") 10 (env f)).2.consultedFiles
                  f }
          else (rawExec s ("consult(" ++ f ++ ").") 10 (env f)).2) := rfl
    rw [hstep]
    by_cases hs : isSuccess (rawExec s ("consult(" ++ f ++ ").") 10 (env f)).1 = true
    · rw [if_pos hs]
      have hcf :
          ({ (rawExec s ("consult(" ++ f ++ ").") 10 (env f)).2 with
             consultedFiles :=
               addFile
                 (rawExec s ("consult(" ++ f ++ ").") 10 (env f)).2.consultedFiles
                 f } : SessionState).consultedFiles = s.consultedFiles := by
        simp only [hr.2.2.1]
        exact addFile_mem _ f (hf f (List.mem_cons_self _ _))
      have := ih _ (by
        intro x hx
        rw [hcf]
        exact hf x (List.mem_cons_of_mem _ hx))
      refine ⟨by rw [this.1, hcf], le_trans hr.2.2.2.2 (by simpa using this.2)⟩
    · rw [if_neg hs]
      have := ih _ (by
        intro x hx
        rw [hr.2.2.1]
        exact hf x (List.mem_cons_of_mem _ hx))
      refine ⟨by rw [this.1, hr.2.2.1], le_trans hr.2.2.2.2 this.2⟩

theorem restartSession_counter_le (s : SessionState) (env : RestartEnv) (b : Bool)
    (s2 : SessionState) (h : restartSession s env = .ok (b, s2)) :
    s.queryCounter ≤ s2.queryCounter := by
  unfold restartSession at h
  cases hs : startSession (cleanupProcess s) env.start with
  | blocked => rw [hs] at h; exact absurd h (by simp)
  | ok pair =>
    obtain ⟨b', s3⟩ := pair
    have hst := startSession_state (cleanupProcess s) env.start b' s3 hs
    rw [hs] at h
    cases b' with
    | false =>
      cases h
      exact hst.2
    | true =>
      cases h
      have hrep := replayConsults_state env.consult s.consultedFiles s3 (by
        intro x hx
        rw [hst.1]
        exact hx)
      exact le_trans hst.2 hrep.2

theorem executeQuery_counter_le (s : SessionState) (q : String) (tm : Nat)
    (env : ExecEnv) (r : QueryResult) (s2 : SessionState)
    (h : executeQuery s q tm env = .ok (r, s2)) :
    s.queryCounter ≤ s2.queryCounter := by
  unfold executeQuery at h
  split at h
  · exact absurd h (by simp)
  · simp only [] at h
    cases hs : ensureSessionActive { s with lockHeld := true } env.start with
    | blocked => rw [hs] at h; exact absurd h (by simp)
    | ok pair =>
      obtain ⟨b', s3⟩ := pair
      have hst : s.queryCounter ≤ s3.queryCounter := by
        unfold ensureSessionActive at hs
        split at hs
        · exact (startSession_state _ env.start b' s3 hs).2
        · cases hs
          exact le_refl _
      rw [hs] at h
      cases b' with
      | false =>
        cases h
        exact hst
      | true =>
        cases h
        have hr := rawExec_frame s3 (normalizeQuery q) tm env.query
        simpa using le_trans hst hr.2.2.2.2

theorem rawExec_counter_succ (s : SessionState) (q : String) (tm : Nat)
    (env : QueryEnv) (p : Proc) (hp : s.process = some p) (ha : p.alive = true) :
    (rawExec s q tm env).2.queryCounter = s.queryCounter + 1 := by
  unfold rawExec
  rw [hp]
  cases ho : env.outcome <;> simp [ha, ho]

theorem rawTerminator_distinct (s1 s2 : SessionState) (e1 e2 : QueryEnv)
    (h : s1.queryCounter ≠ s2.queryCounter) (hs : e1.suffix = e2.suffix) :
    rawTerminator s1 e1 ≠ rawTerminator s2 e2 := by
  unfold rawTerminator
  rw [hs]
  exact mkTerminator_inj_counter e2.suffix (by omega)

/-- C9: (i) a query execution against a live process increments the
query counter by exactly one; (ii) `_cleanup_process` leaves the
counter unchanged, and `start_session`, `restart_session` and
`execute_query` never decrease it — no operation resets it; (iii) two
query executions at different counter values build distinct terminator
token strings even when their random suffixes coincide. -/
theorem c9_counter_monotone_terminators_distinct :
    (∀ (s : SessionState) (q : String) (tm : Nat) (env : QueryEnv) (p : Proc),
      s.process = some p → p.alive = true →
      (rawExec s q tm env).2.queryCounter = s.queryCounter + 1) ∧
    (∀ s : SessionState, (cleanupProcess s).queryCounter = s.queryCounter) ∧
    (∀ (s : SessionState) (env : StartEnv) (b : Bool) (s2 : SessionState),
      startSession s env = .ok (b, s2) → s.queryCounter ≤ s2.queryCounter) ∧
    (∀ (s : SessionState) (env : RestartEnv) (b : Bool) (s2 : SessionState),
      restartSession s env = .ok (b, s2) → s.queryCounter ≤ s2.queryCounter) ∧
    (∀ (s : SessionState) (q : String) (tm : Nat) (env : ExecEnv)
       (r : QueryResult) (s2 : SessionState),
      executeQuery s q tm env = .ok (r, s2) → s.queryCounter ≤ s2.queryCounter) ∧
    (∀ (s1 s2 : SessionState) (e1 e2 : QueryEnv),
      s1.queryCounter ≠ s2.queryCounter → e1.suffix = e2.suffix →
      rawTerminator s1 e1 ≠ rawTerminator s2 e2) :=
  ⟨fun s q tm env p hp ha => rawExec_counter_succ s q tm env p hp ha,
   fun _ => rfl,
   fun s env b s2 h => (startSession_state s env b s2 h).2,
   fun s env b s2 h => restartSession_counter_le s env b s2 h,
   fun s q tm env r s2 h => executeQuery_counter_le s q tm env r s2 h,
   fun s1 s2 e1 e2 h hs => rawTerminator_distinct s1 s2 e1 e2 h hs⟩

/-- C9 witness: the exact-increment part and the distinct-terminator
part at concrete sessions sharing the suffix `"zz"`. -/
theorem c9_witness :
    (rawExec
        { sessionActive := true, process := some ⟨1, true⟩, queryCounter := 0,
          consultedFiles := [], lockHeld := true } "true." 5
        { outcome := .respond [] false, suffix := "zz" }).2.queryCounter = 0 + 1 ∧
    rawTerminator
        { sessionActive := true, process := some ⟨1, true⟩, queryCounter := 0,
          consultedFiles := [], lockHeld := true }
        { outcome := .respond [] false, suffix := "zz" } ≠
      rawTerminator
        { sessionActive := true, process := some ⟨1, true⟩, queryCounter := 1,
          consultedFiles := [], lockHeld := true }
        { outcome := .respond [] false, suffix := "zz" } :=
  ⟨c9_counter_monotone_terminators_distinct.1 _ "true." 5 _ ⟨1, true⟩ rfl rfl,
   c9_counter_monotone_terminators_distinct.2.2.2.2.2 _ _ _ _ (by decide) rfl⟩

/-- C3: the claim as frozen is false — after a `restart_session` that
returns true, a name whose replayed consult FAILED is still a member of
`consulted_files`: the set is never cleared before the replay, so
nothing is ever removed.  Here `kb` fails to re-consult (the replay
answers `FAILURE`), yet the final state still contains `kb`. -/
theorem c3_counterexample :
    restartSession replayFailState replayFailEnv =
      .ok (true,
           { sessionActive := true, process := some ⟨2, true⟩, queryCounter := 2,
             consultedFiles := ["kb"], lockHeld := false }) ∧
    "kb" ∈
      ({ sessionActive := true, process := some ⟨2, true⟩, queryCounter := 2,
         consultedFiles := ["kb"], lockHeld := false } : SessionState).consultedFiles := by
  decide

/-- C3 (amended): after `restart_session` returns, `consulted_files` is
exactly what it was before the call — replay failures remove nothing
(the set is never cleared, and a successful replay re-adds an
already-present name) — and the returned boolean is the verdict of the
fresh `start_session` alone, independent of replay failures. -/
theorem c3_restart_preserves_consultedFiles (s : SessionState) (env : RestartEnv)
    (b : Bool) (s2 : SessionState) (h : restartSession s env = .ok (b, s2)) :
    s2.consultedFiles = s.consultedFiles ∧
    (∃ s3 : SessionState,
      startSession (cleanupProcess s) env.start = .ok (b, s3)) := by
  unfold restartSession at h
  cases hs : startSession (cleanupProcess s) env.start with
  | blocked => rw [hs] at h; exact absurd h (by simp)
  | ok pair =>
    obtain ⟨b', s3⟩ := pair
    have hst := startSession_state (cleanupProcess s) env.start b' s3 hs
    rw [hs] at h
    cases b' with
    | false =>
      injection h with h1
      injection h1 with hb hs2
      subst hb
      subst hs2
      exact ⟨hst.1.trans rfl, s3, rfl⟩
    | true =>
      injection h with h1
      injection h1 with hb hs2
      subst hb
      subst hs2
      have hrep := replayConsults_state env.consult s.consultedFiles s3 (by
        intro x hx
        rw [hst.1]
        exact hx)
      refine ⟨?_, s3, rfl⟩
      rw [hrep.1, hst.1]
      rfl

/-- C3 witness: the amended claim applied at the concrete failing
replay — the consulted set is unchanged. -/
theorem c3_witness :
    ({ sessionActive := true, process := some ⟨2, true⟩, queryCounter := 2,
       consultedFiles := ["kb"], lockHeld := false } : SessionState).consultedFiles =
      replayFailState.consultedFiles ∧
    (∃ s3 : SessionState,
      startSession (cleanupProcess replayFailState) replayFailEnv.start =
        .ok (true, s3)) :=
  c3_restart_preserves_consultedFiles replayFailState replayFailEnv true _ (by decide)

/-! ## Variable-classification claims -/

theorem mkTerminator_ne_success (n : Nat) (suf : String) :
    ("SUCCESS" : String) ≠ mkTerminator n suf := by
  intro h
  have hd := congrArg String.data h
  have h1 : ("SUCCESS" : String).data = ['S', 'U', 'C', 'C', 'E', 'S', 'S'] := rfl
  rw [h1] at hd
  simp [mkTerminator, data_append] at hd

/-- C4: the claim as frozen — `executeQuery("member(X, []).")` returns
`Failure` — is false at the output the variable-bearing encoding
produces for an empty solution set under the standard semantics of
`forall/2`: `forall(G, Print)` succeeds vacuously when `G` has no
solutions, so the subprocess prints zero solution lines, the SUCCESS
marker, and the terminator, and the call returns `SimpleSuccess`. -/
theorem c4_counterexample :
    hasVariables (normalizeQuery "member(X, []).") = true ∧
    encodeShape (normalizeQuery "member(X, []).") = .varBearing ∧
    executeQuery emptySolState "member(X, [])." 30 emptySolEnv =
      .ok (.simpleSuccess,
           { sessionActive := true, process := some ⟨3, true⟩, queryCounter := 1,
             consultedFiles := [], lockHeld := false }) ∧
    QueryResult.simpleSuccess ≠ QueryResult.failure := by
  decide

/-- C4 (amended): `executeQuery("member(X, []).")` classifies the query
as variable-bearing, and when the subprocess answers with zero solution
lines followed by the success marker and the terminator — which is what
the `forall`-based encoding produces for an empty solution set, since
`forall` succeeds vacuously — the call returns `SimpleSuccess`, not
`Failure` and not `Solutions([])`. -/
theorem c4_empty_solution_set_simple_success :
    hasVariables (normalizeQuery "member(X, []).") = true ∧
    (∀ (s : SessionState) (tm : Nat) (env : ExecEnv) (p : Proc),
      s.lockHeld = false → s.sessionActive = true → s.process = some p →
      p.alive = true →
      env.query.outcome = .respond ["SUCCESS", rawTerminator s env.query] false →
      executeQuery s "member(X, [])." tm env =
        .ok (.simpleSuccess, { s with queryCounter := s.queryCounter + 1 })) := by
  refine ⟨by decide, ?_⟩
  intro s tm env p hl ha hp hal ho
  rw [executeQuery_active_run s _ tm env p hl ha hp hal]
  have ht : rawTerminator { s with lockHeld := true } env.query =
      rawTerminator s env.query := rfl
  rw [rawExec_respond { s with lockHeld := true } _ tm env.query p _ false hp hal ho,
    ht]
  rw [parseLoop_cons_success _ _ _ _
      (show ("SUCCESS" : String) ≠ rawTerminator s env.query from
        mkTerminator_ne_success (s.queryCounter + 1) env.query.suffix),
    parseLoop_cons_term]
  have hfin : finalizeLoop tm false (LoopExit.term true []) = .simpleSuccess := by
    simp [finalizeLoop, finalize]
  rw [hfin]
  cases s
  simp_all

/-- C4 witness: the amended claim applied at a concrete session with
counter 4 (terminator `DONE_Q5_feedface`). -/
theorem c4_witness :
    executeQuery
        { sessionActive := true, process := some ⟨8, true⟩, queryCounter := 4,
          consultedFiles := [], lockHeld := false } "member(X, [])." 30
        { start := idleStartEnv,
          query := { outcome := .respond ["SUCCESS", "DONE_Q5_feedface"] false,
                     suffix := "feedface" } } =
      .ok (.simpleSuccess,
           { sessionActive := true, process := some ⟨8, true⟩, queryCounter := 4 + 1,
             consultedFiles := [], lockHeld := false }) :=
  c4_empty_solution_set_simple_success.2 _ 30 _ ⟨8, true⟩ rfl rfl rfl rfl (by decide)

/-- When no line carries the solution marker, the read loop can only
stop with its solutions accumulator unchanged (or return an `ERROR:`
line). -/
theorem parseLoop_no_solution_lines (t : String) :
    ∀ (ls : List String) (succ : Bool) (sols : List String),
      (∀ l ∈ ls, pyStartsWith l "SOLUTION: " = false) →
      (∃ b, parseLoop t succ sols ls = .term b sols) ∨
      (∃ b, parseLoop t succ sols ls = .ranOut b sols) ∨
      (∃ l, parseLoop t succ sols ls = .errLine l) := by
  intro ls
  induction ls with
  | nil => intro succ sols _; exact Or.inr (Or.inl ⟨succ, rfl⟩)
  | cons l rest ih =>
    intro succ sols hno
    have hl := hno l (List.mem_cons_self _ _)
    have hrest : ∀ x ∈ rest, pyStartsWith x "SOLUTION: " = false :=
      fun x hx => hno x (List.mem_cons_of_mem _ hx)
    by_cases h0 : l = t
    · subst h0
      exact Or.inl ⟨succ, parseLoop_cons_term _ succ sols rest⟩
    · by_cases h1 : l = "SUCCESS"
      · subst h1
        rw [parseLoop_cons_success _ _ _ _ h0]
        exact ih true sols hrest
      · by_cases h2 : l = "FAILURE"
        · subst h2
          rw [parseLoop_cons_failure _ _ _ _ h0]
          exact ih false sols hrest
        · by_cases h4 : pyStartsWith l "ERROR:" = true
          · rw [parseLoop_cons_error t l succ sols rest h0 h1 h2 hl h4]
            exact Or.inr (Or.inr ⟨l, rfl⟩)
          · have h4' : pyStartsWith l "ERROR:" = false := by simpa using h4
            rw [parseLoop_cons_skip t l succ sols rest h0 h1 h2 hl h4']
            exact ih succ sols hrest

/-- C10: `"foo(_X)."` has its only free variable prefixed by an
underscore; the heuristic finds no `\b[A-Z]` match (the underscore is a
word character, so there is no word boundary before `X`), classifies
the query as ground, and the ground encoding emits no solution lines —
so whenever `execute_query` on this query returns at all, the Result is
`SimpleSuccess`, `Failure` or an error, never `Solutions`. -/
theorem c10_underscore_variables_classified_ground :
    hasVariables (normalizeQuery "foo(_X).") = false ∧
    encodeShape (normalizeQuery "foo(_X).") = .ground ∧
    (∀ (s : SessionState) (tm : Nat) (env : ExecEnv) (r : QueryResult)
       (s2 : SessionState),
      (∀ l ∈ responseLines env.query, pyStartsWith l "SOLUTION: " = false) →
      executeQuery s "foo(_X)." tm env = .ok (r, s2) →
      r = .simpleSuccess ∨ r = .failure ∨ ∃ m, r = .error m) := by
  refine ⟨by decide, by decide, ?_⟩
  intro s tm env r s2 hno heq
  unfold executeQuery at heq
  split at heq
  · exact absurd heq (by simp)
  · simp only [] at heq
    cases hs : ensureSessionActive { s with lockHeld := true } env.start with
    | blocked => rw [hs] at heq; exact absurd heq (by simp)
    | ok pair =>
      obtain ⟨b', s3⟩ := pair
      rw [hs] at heq
      cases b' with
      | false =>
        injection heq with h1
        injection h1 with hr hs2
        exact Or.inr (Or.inr ⟨_, hr.symm⟩)
      | true =>
        injection heq with h1
        injection h1 with hr hs2
        cases hp : s3.process with
        | none =>
          rw [rawExec_dead s3 _ tm env.query (by simp [procAlive, hp])] at hr
          exact Or.inr (Or.inr ⟨_, hr.symm⟩)
        | some p =>
          by_cases hal : p.alive = true
          · cases ho : env.query.outcome with
            | raises m =>
              rw [rawExec_raises s3 _ tm env.query p m hp hal ho] at hr
              exact Or.inr (Or.inr ⟨_, hr.symm⟩)
            | respond ls b =>
              rw [rawExec_respond s3 _ tm env.query p ls b hp hal ho] at hr
              have hnols : ∀ l ∈ ls, pyStartsWith l "SOLUTION: " = false := by
                intro x hx
                exact hno x (by simp [responseLines, ho]; exact hx)
              rcases parseLoop_no_solution_lines (rawTerminator s3 env.query) ls
                  false [] hnols with ⟨bb, hb⟩ | ⟨bb, hb⟩ | ⟨el, hb⟩
              · rw [hb] at hr
                cases bb <;> simp [finalizeLoop, finalize] at hr <;>
                  first
                    | exact Or.inr (Or.inl hr.symm)
                    | exact Or.inl hr.symm
              · rw [hb] at hr
                by_cases htO : b = true
                · subst htO
                  simp [finalizeLoop] at hr
                  exact Or.inr (Or.inr ⟨_, hr.symm⟩)
                · have hb' : b = false := by simpa using htO
                  subst hb'
                  cases bb <;> simp [finalizeLoop, finalize] at hr <;>
                    first
                      | exact Or.inr (Or.inl hr.symm)
                      | exact Or.inl hr.symm
              · rw [hb] at hr
                simp [finalizeLoop] at hr
                exact Or.inr (Or.inr ⟨_, hr.symm⟩)
          · have hal' : p.alive = false := by simpa using hal
            rw [rawExec_dead s3 _ tm env.query (by simp [procAlive, hp, hal'])] at hr
            exact Or.inr (Or.inr ⟨_, hr.symm⟩)

/-- C10 witness: a ground-shaped SUCCESS response to `"foo(_X)."`
yields `SimpleSuccess` — one of the three permitted result shapes. -/
theorem c10_witness :
    QueryResult.simpleSuccess = QueryResult.simpleSuccess ∨
    QueryResult.simpleSuccess = QueryResult.failure ∨
    ∃ m, QueryResult.simpleSuccess = QueryResult.error m :=
  c10_underscore_variables_classified_ground.2.2
    { sessionActive := true, process := some ⟨6, true⟩, queryCounter := 0,
      consultedFiles := [], lockHeld := false } 30
    { start := idleStartEnv,
      query := { outcome := .respond ["SUCCESS", "DONE_Q1_0badf00d"] false,
                 suffix := "0badf00d" } }
    .simpleSuccess
    { sessionActive := true, process := some ⟨6, true⟩, queryCounter := 1,
      consultedFiles := [], lockHeld := false }
    (by decide) (by decide)

end DockerSwish

